import Mathlib

/-!
Verification of the pass execution and statistics engine of scanbadblocks.cpp
(repository jovermann/scanbadsectors). The definitions below are a shallow
embedding of the `BlockChecker` class and its helpers: block geometry,
pattern generation (`initBlock`), read and write pass execution with
per-block statistics, pass statistics aggregation (`printPassStats`) and
the progress line (`printProgress`). Machine doubles are modelled as
rationals; the external block I/O capability is modelled by explicit
per-block result and elapsed-time oracles; C++ undefined behaviour
(dereference of an empty `std::optional`, division by zero, out-of-bounds
vector indexing) is modelled by explicit error values or option types.
-/

namespace ScanBadBlocks

/-- Constant MB from the source: 1024.0 * 1024.0. -/
def MB : ℚ := 1024 * 1024

/-- Struct BlockStats of the source: cumulative time, error count and byte
count of one block (also used for the run-wide totalRead and totalWrite). -/
structure BlockStats where
  time : ℚ := 0
  errors : Nat := 0
  bytes : Nat := 0
deriving DecidableEq, Inhabited

/-- Member getRateMB of the source: bytes / time / MB if time > 0, else 0. -/
def BlockStats.getRateMB (s : BlockStats) : ℚ :=
  if 0 < s.time then (s.bytes : ℚ) / s.time / MB else 0

/-- Line 36 of the constructor: numBlocks = (sizeBytes + blockSize - 1) / blockSize. -/
def numBlocks (sizeBytes blockSize : Nat) : Nat :=
  (sizeBytes + blockSize - 1) / blockSize

/-- Access length of one block (readPass lines 101-105, writePass lines
161-165): blockSize, except sizeBytes % blockSize for a final partial block. -/
def accessSize (sizeBytes blockSize blockIndex : Nat) : Nat :=
  if (blockIndex + 1) * blockSize > sizeBytes then sizeBytes % blockSize else blockSize

/-- First eight bytes written by member initBlock of the source: byte k is
pattern XOR byte k of the little-endian decomposition of blockIndex. -/
def initBlockHeader (pattern blockIndex : Nat) : List Nat :=
  [pattern ^^^ (blockIndex &&& 0xff),
   pattern ^^^ ((blockIndex >>> 8) &&& 0xff),
   pattern ^^^ ((blockIndex >>> 16) &&& 0xff),
   pattern ^^^ ((blockIndex >>> 24) &&& 0xff),
   pattern ^^^ ((blockIndex >>> 32) &&& 0xff),
   pattern ^^^ ((blockIndex >>> 40) &&& 0xff),
   pattern ^^^ ((blockIndex >>> 48) &&& 0xff),
   pattern ^^^ ((blockIndex >>> 56) &&& 0xff)]

/-- Member initBlock of the source: overwrite the first eight bytes of the
buffer with the index encoding, keep the rest. -/
def initBlock (buffer : List Nat) (blockIndex pattern : Nat) : List Nat :=
  initBlockHeader pattern blockIndex ++ buffer.drop 8

/-- Content of the pattern buffer for one block: a blockSize fill of the
pattern byte with initBlock applied, as built by readPass (lines 96 and 100)
and writePass (lines 156 and 160). -/
def patternBlock (pattern blockIndex blockSize : Nat) : List Nat :=
  initBlock (List.replicate blockSize pattern) blockIndex pattern

/-- Helper: pointwise update of one list entry, modelling the vector write
blockStats[blockIndex]. An out-of-range index leaves the list unchanged. -/
def updateAt {α : Type _} (i : Nat) (f : α → α) : List α → List α
  | [] => []
  | x :: xs =>
    match i with
    | 0 => f x :: xs
    | n + 1 => x :: updateAt n f xs

/-- State of readPass (lines 82-140): the per-block stats of the running
pass, the run-wide read totals, the reused read buffer, the file position of
the open descriptor, and a count of the dereferences of the absent pattern
optional: lines 96 and 100 evaluate *pattern even when no pattern was
passed, which for an empty std::optional is undefined behaviour, so the
count records each such evaluation. -/
structure ReadState where
  blockStats : List BlockStats
  totalRead : BlockStats
  buffer : List Nat
  pos : Nat
  absentDerefs : Nat
deriving DecidableEq, Inhabited

/-- One iteration of the readPass loop (lines 98-135) for block blockIndex.
The oracle result models the return value of the read call and elapsed the
measured wall clock time; junk stands for the indeterminate byte produced by
dereferencing the absent pattern optional. On result < 0 only the error
counters move (lines 109-113). Otherwise the buffer receives the bytes read
from the device at the current position and, when a pattern is active, all
blockSize buffer bytes are compared against the expected pattern buffer
(lines 116-128, one error on the first mismatch), and time and the full
accessSize are accumulated into the block record and the read totals
(lines 129-132). -/
def readBlockStep (sizeBytes blockSize : Nat) (pattern : Option Nat) (junk : Nat)
    (device : List Nat) (blockIndex : Nat) (result : Int) (elapsed : ℚ)
    (st : ReadState) : ReadState :=
  let expected := patternBlock (pattern.getD junk) blockIndex blockSize
  let derefs := st.absentDerefs + if pattern.isNone then 1 else 0
  let acc := accessSize sizeBytes blockSize blockIndex
  if result < 0 then
    { st with
      blockStats := updateAt blockIndex (fun s => { s with errors := s.errors + 1 }) st.blockStats
      totalRead := { st.totalRead with errors := st.totalRead.errors + 1 }
      absentDerefs := derefs }
  else
    let bytesRead := (device.drop st.pos).take result.toNat
    let buffer := (bytesRead ++ st.buffer.drop bytesRead.length).take blockSize
    let dataError := pattern.isSome && decide (buffer ≠ expected.take blockSize)
    { blockStats := updateAt blockIndex
        (fun s => { s with
          errors := s.errors + (if dataError then 1 else 0)
          time := s.time + elapsed
          bytes := s.bytes + acc }) st.blockStats
      totalRead := { st.totalRead with
        errors := st.totalRead.errors + (if dataError then 1 else 0)
        time := st.totalRead.time + elapsed
        bytes := st.totalRead.bytes + acc }
      buffer := buffer
      pos := st.pos + result.toNat
      absentDerefs := derefs }

/-- Member readPass (lines 82-140): fresh block stats sized to numBlocks, a
zero-initialised read buffer of blockSize bytes, then the loop over all
blocks in ascending order. The expected-pattern vector constructor at line
96 dereferences the pattern optional once, counted when it is absent. -/
def readPass (sizeBytes blockSize : Nat) (pattern : Option Nat) (junk : Nat)
    (device : List Nat) (results : Nat → Int) (elapsed : Nat → ℚ) : ReadState :=
  (List.range (numBlocks sizeBytes blockSize)).foldl
    (fun st i => readBlockStep sizeBytes blockSize pattern junk device i (results i) (elapsed i) st)
    { blockStats := List.replicate (numBlocks sizeBytes blockSize) {}
      totalRead := {}
      buffer := List.replicate blockSize 0
      pos := 0
      absentDerefs := if pattern.isNone then 1 else 0 }

/-- Member checkReadOnly (lines 47-53): exactly one read pass without a
pattern. -/
def checkReadOnly (sizeBytes blockSize : Nat) (junk : Nat) (device : List Nat)
    (results : Nat → Int) (elapsed : Nat → ℚ) : ReadState :=
  readPass sizeBytes blockSize none junk device results elapsed

/-- State of writePass (lines 142-188): per-block stats, run-wide write
totals, the disk image being overwritten and the file position. -/
structure WriteState where
  blockStats : List BlockStats
  totalWrite : BlockStats
  disk : List Nat
  pos : Nat
deriving DecidableEq, Inhabited

/-- One iteration of the writePass loop (lines 158-183) for block
blockIndex: the block buffer is the pattern fill with initBlock applied
(lines 156 and 160); on result < 0 only the error counters move, otherwise
result bytes of the buffer land on the disk at the current position and time
and the full accessSize are accumulated (lines 177-180). -/
def writeBlockStep (sizeBytes blockSize pattern : Nat)
    (blockIndex : Nat) (result : Int) (elapsed : ℚ) (st : WriteState) : WriteState :=
  let buffer := patternBlock pattern blockIndex blockSize
  let acc := accessSize sizeBytes blockSize blockIndex
  if result < 0 then
    { st with
      blockStats := updateAt blockIndex (fun s => { s with errors := s.errors + 1 }) st.blockStats
      totalWrite := { st.totalWrite with errors := st.totalWrite.errors + 1 } }
  else
    let written := buffer.take result.toNat
    { blockStats := updateAt blockIndex
        (fun s => { s with time := s.time + elapsed, bytes := s.bytes + acc }) st.blockStats
      totalWrite := { st.totalWrite with
        time := st.totalWrite.time + elapsed
        bytes := st.totalWrite.bytes + acc }
      disk := st.disk.take st.pos ++ written ++ st.disk.drop (st.pos + written.length)
      pos := st.pos + result.toNat }

/-- Member writePass (lines 142-188) over an initial disk image, with the
per-block results and timings as oracles. -/
def writePass (sizeBytes blockSize pattern : Nat) (disk : List Nat)
    (results : Nat → Int) (elapsed : Nat → ℚ) : WriteState :=
  (List.range (numBlocks sizeBytes blockSize)).foldl
    (fun st i => writeBlockStep sizeBytes blockSize pattern i (results i) (elapsed i) st)
    { blockStats := List.replicate (numBlocks sizeBytes blockSize) {}
      totalWrite := {}
      disk := disk
      pos := 0 }

/-- Sum of the bytes fields over all block records of a pass. -/
def sumBytes (l : List BlockStats) : Nat :=
  (l.map (fun s => s.bytes)).sum

/-- Ordering used by the std::sort call of printPassStats (line 269): by
ascending rate. -/
def rateLE (a b : BlockStats) : Prop :=
  a.getRateMB ≤ b.getRateMB

instance : DecidableRel rateLE :=
  fun a b => inferInstanceAs (Decidable (a.getRateMB ≤ b.getRateMB))

instance : IsTotal BlockStats rateLE :=
  ⟨fun a b => le_total a.getRateMB b.getRateMB⟩

instance : IsTrans BlockStats rateLE :=
  ⟨fun _ _ _ h1 h2 => le_trans h1 h2⟩

/-- Sorting step of printPassStats (line 269): order the block records by
ascending rate. The source uses std::sort with a strict comparator and an
arbitrary tie order; the model uses an insertion sort on the matching
reflexive order, which produces one admissible outcome. -/
def sortStats (stats : List BlockStats) : List BlockStats :=
  List.insertionSort rateLE stats

/-- Reported minimum rate: blockStats[0] after sorting (line 270). -/
def passMin (stats : List BlockStats) : ℚ :=
  ((sortStats stats).getD 0 default).getRateMB

/-- Reported maximum rate: blockStats[numBlocks - 1] after sorting (line 271). -/
def passMax (stats : List BlockStats) : ℚ :=
  ((sortStats stats).getD (stats.length - 1) default).getRateMB

/-- Reported median rate: blockStats[numBlocks / 2] after sorting (line 272). -/
def passMed (stats : List BlockStats) : ℚ :=
  ((sortStats stats).getD (stats.length / 2) default).getRateMB

/-- Fixed percentile thresholds of printPassStats (line 281). -/
def percentiles : List ℚ :=
  [50, 20, 10, 5]

/-- Outlier scan of printPassStats (lines 284-285): walk the sorted records
from the start while the rate is strictly below med * percent / 100. -/
def outlierNum (stats : List BlockStats) (percent : ℚ) : Nat :=
  ((sortStats stats).takeWhile
    (fun s => decide (s.getRateMB < passMed stats * percent / 100))).length

/-- Warnings emitted by printPassStats (lines 286-289): one entry per
percentile whose outlier count is nonzero. -/
def outlierWarnings (stats : List BlockStats) : List (ℚ × Nat) :=
  (percentiles.map (fun p => (p, outlierNum stats p))).filter (fun w => decide (w.2 ≠ 0))

/-- Direction and pattern byte of a progress line (printProgress lines
201-206): present only in multi-pass mode; the direction comes from the
parity of passIndex and the pattern byte is read at patterns[passIndex],
which is an out-of-bounds vector access (modelled as none) once passIndex
reaches the pattern count. -/
def progressLine (numPasses passIndex : Nat) (patterns : List Nat) :
    Option (String × Option Nat) :=
  if numPasses > 1 then
    some (if passIndex &&& 1 ≠ 0 then "read" else "write", patterns[passIndex]?)
  else
    none

/-- Input fields of class BlockChecker established by the constructor. -/
structure BlockChecker where
  blockSize : Nat
  sizeBytes : Nat
  numBlocks : Nat
  patterns : List Nat
deriving DecidableEq

/-- Failure modes of the BlockChecker constructor (lines 29-45): a division
by zero in the numBlocks computation when blockSize = 0 (undefined behaviour
in the source, modelled as an explicit error value), and the runtime error
thrown when the device size is zero. -/
inductive CheckerError where
  | divisionByZero
  | invalidDevice (msg : String)
deriving DecidableEq

/-- Constructor BlockChecker::BlockChecker (lines 29-45): numBlocks is
computed first (line 36, dividing by blockSize with no zero guard), and the
zero-size check with its runtime error runs afterwards (lines 41-44). -/
def mkBlockChecker (sizeBytes blockSize : Nat) (patterns : List Nat) :
    Except CheckerError BlockChecker :=
  if blockSize = 0 then
    .error .divisionByZero
  else
    let nb := (sizeBytes + blockSize - 1) / blockSize
    if sizeBytes = 0 then
      .error (.invalidDevice "Cannot determine size!")
    else
      .ok { blockSize := blockSize, sizeBytes := sizeBytes, numBlocks := nb, patterns := patterns }

/-- Helper: numBlocks on an explicit division decomposition. -/
lemma numBlocks_mul_add (b q r : Nat) (hb : 0 < b) (hr : r < b) :
    numBlocks (b * q + r) b = if r = 0 then q else q + 1 := by
  unfold numBlocks
  by_cases h : r = 0
  · subst h
    rw [if_pos rfl, show b * q + 0 + b - 1 = b * q + (b - 1) by omega,
      Nat.mul_add_div hb, Nat.div_eq_of_lt (by omega)]
    omega
  · rw [if_neg h, show b * q + r + b - 1 = b * (q + 1) + (r - 1) by
      rw [Nat.mul_add, Nat.mul_one]; omega,
      Nat.mul_add_div hb, Nat.div_eq_of_lt (by omega)]

/-- Helper: a full (non-final) block has access length blockSize. -/
lemma accessSize_of_le (s b i : Nat) (h : (i + 1) * b ≤ s) : accessSize s b i = b := by
  unfold accessSize
  rw [if_neg (not_lt.mpr h)]

/-- Helper: the sum of a constant function over List.range. -/
lemma sum_map_range_const (f : Nat → Nat) (c : Nat) :
    ∀ n, (∀ i, i < n → f i = c) → ((List.range n).map f).sum = n * c := by
  intro n
  induction n with
  | zero => intro _; simp
  | succ n ih =>
    intro h
    rw [List.range_succ, List.map_append, List.sum_append,
      ih (fun i hi => h i (by omega)), List.map_singleton, List.sum_singleton,
      h n (by omega), Nat.succ_mul]

/-- Helper: the complete block geometry facts, shared between the claims. -/
lemma blockGeometry (s b : Nat) (hs : 0 < s) (hb : 0 < b) :
    (s % b = 0 → ∀ i, i < numBlocks s b → accessSize s b i = b) ∧
    (s % b ≠ 0 → (∀ i, i < numBlocks s b - 1 → accessSize s b i = b) ∧
      accessSize s b (numBlocks s b - 1) = s % b) ∧
    ((List.range (numBlocks s b)).map (accessSize s b)).sum = s ∧
    numBlocks s b = (s + b - 1) / b ∧
    s ≤ numBlocks s b * b ∧ (numBlocks s b - 1) * b < s := by
  obtain ⟨q, r, rfl, hr⟩ : ∃ q r, s = b * q + r ∧ r < b :=
    ⟨s / b, s % b, (Nat.div_add_mod s b).symm, Nat.mod_lt s hb⟩
  have hmod : (b * q + r) % b = r := by
    rw [Nat.mul_add_mod]; exact Nat.mod_eq_of_lt hr
  have hnb := numBlocks_mul_add b q r hb hr
  have hfull : ∀ i, i + 1 ≤ q → accessSize (b * q + r) b i = b := by
    intro i hi
    apply accessSize_of_le
    calc (i + 1) * b ≤ q * b := Nat.mul_le_mul_right b hi
    _ = b * q := Nat.mul_comm q b
    _ ≤ b * q + r := Nat.le_add_right _ _
  by_cases h0 : r = 0
  · subst h0
    rw [if_pos rfl] at hnb
    simp only [Nat.add_zero] at hs hmod hnb hfull ⊢
    have hq : 0 < q := by
      rcases Nat.eq_zero_or_pos q with h | h
      · subst h; simp at hs
      · exact h
    refine ⟨?_, ?_, ?_, rfl, ?_, ?_⟩
    · intro _ i hi
      rw [hnb] at hi
      exact hfull i hi
    · intro h
      rw [hmod] at h
      exact absurd rfl h
    · rw [hnb, sum_map_range_const _ b q (fun i hi => hfull i hi), Nat.mul_comm q b]
    · rw [hnb, Nat.mul_comm q b]
    · rw [hnb, Nat.sub_mul, Nat.one_mul, Nat.mul_comm q b]
      have hbq : b ≤ b * q := Nat.le_mul_of_pos_right b hq
      omega
  · rw [if_neg h0] at hnb
    have hlast : accessSize (b * q + r) b q = r := by
      have hgt : (q + 1) * b > b * q + r := by
        rw [Nat.add_mul, Nat.one_mul, Nat.mul_comm q b]
        omega
      unfold accessSize
      rw [if_pos hgt, hmod]
    refine ⟨?_, ?_, ?_, rfl, ?_, ?_⟩
    · intro h
      rw [hmod] at h
      exact absurd h h0
    · intro _
      constructor
      · intro i hi
        rw [hnb, Nat.add_sub_cancel] at hi
        exact hfull i hi
      · rw [hmod, hnb, Nat.add_sub_cancel]
        exact hlast
    · rw [hnb, List.range_succ, List.map_append, List.sum_append,
        sum_map_range_const _ b q (fun i hi => hfull i hi),
        List.map_singleton, List.sum_singleton, hlast, Nat.mul_comm q b]
    · rw [hnb, Nat.add_mul, Nat.one_mul, Nat.mul_comm q b]
      omega
    · rw [hnb, Nat.add_sub_cancel, Nat.mul_comm q b]
      omega

/-- Claim C6: for sizeBytes > 0 and blockSize > 0 with r = sizeBytes %
blockSize, every block has access length blockSize when r = 0; otherwise all
blocks except the last have length blockSize and the last block (index
numBlocks - 1) has length r; the access lengths sum to sizeBytes; and
numBlocks is the ceiling of sizeBytes / blockSize. -/
theorem C6_block_geometry (s b : Nat) (hs : 0 < s) (hb : 0 < b) :
    (s % b = 0 → ∀ i, i < numBlocks s b → accessSize s b i = b) ∧
    (s % b ≠ 0 → (∀ i, i < numBlocks s b - 1 → accessSize s b i = b) ∧
      accessSize s b (numBlocks s b - 1) = s % b) ∧
    ((List.range (numBlocks s b)).map (accessSize s b)).sum = s ∧
    numBlocks s b = (s + b - 1) / b ∧
    s ≤ numBlocks s b * b ∧ (numBlocks s b - 1) * b < s :=
  blockGeometry s b hs hb

/-- Witness for C6 at the scenario of the specification: sizeBytes = 10,
blockSize = 4 gives three blocks of lengths 4, 4 and 2 summing to 10. -/
theorem C6_block_geometry_witness :
    0 < 10 ∧ 0 < 4 ∧ numBlocks 10 4 = 3 ∧ accessSize 10 4 0 = 4 ∧
      accessSize 10 4 1 = 4 ∧ accessSize 10 4 2 = 2 ∧
      ((List.range (numBlocks 10 4)).map (accessSize 10 4)).sum = 10 :=
  ⟨by decide, by decide, by decide, by decide, by decide, by decide,
    (C6_block_geometry 10 4 (by decide) (by decide)).2.2.1⟩

/-- Claim C1 (code bug): in read-only mode the pass indeed performs no
verification (zero errors on a healthy two-block device, only read results
and timing recorded), but the absent pattern optional IS dereferenced: once
by the expected-buffer constructor at line 96 and once per block by the
initBlock call at line 100, hence 3 evaluations of *pattern on an empty
optional for a device with sizeBytes 8 and blockSize 4. -/
theorem C1_readonly_derefs_absent_pattern :
    (checkReadOnly 8 4 0 (List.replicate 8 0) (fun _ => 4) (fun _ => 1)).absentDerefs = 3 ∧
    (checkReadOnly 8 4 0 (List.replicate 8 0) (fun _ => 4) (fun _ => 1)).totalRead.errors = 0 ∧
    (3 : Nat) ≠ 0 := by
  refine ⟨by decide, by decide, by decide⟩

/-- Counterexample to Claim C2: a completed read pass over a device with
sizeBytes = 8 > 0 and blockSize = 4 > 0 whose first block fails its I/O call
(result -1) sums only 4 bytes over all block records, not sizeBytes = 8. -/
theorem C2_sum_bytes_counterexample :
    sumBytes (readPass 8 4 none 0 (List.replicate 8 0)
      (fun i => if i == 0 then -1 else 4) (fun _ => 1)).blockStats = 4 ∧
    (4 : Nat) ≠ 8 := by
  refine ⟨by decide, by decide⟩

/-- Claim C3 (code bug): over a healthy device of 4 bytes with blockSize 8
the write pass with pattern 0x55 stores exactly 4 bytes 0x55 and the
immediately following read pass with the same pattern reads them back
intact, yet reports one data error: the verification loop of lines 118-127
runs over all blockSize bytes, so for the partial final block it also
compares buffer bytes beyond accessSize that were never read. -/
theorem C3_roundtrip_partial_block_error :
    (writePass 4 8 0x55 (List.replicate 4 0) (fun _ => 4) (fun _ => 1)).disk =
      List.replicate 4 0x55 ∧
    (readPass 4 8 (some 0x55) 0
      ((writePass 4 8 0x55 (List.replicate 4 0) (fun _ => 4) (fun _ => 1)).disk)
      (fun _ => 4) (fun _ => 1)).totalRead.errors = 1 := by
  refine ⟨by decide, by decide⟩

/-- Claim C4 (code bug): the direction of the progress line does follow the
parity of the pass index, but the displayed pattern byte is read from
patterns[passIndex], not patterns[passIndex / 2]: with patterns 0x55, 0xAA
(4 passes), pass index 1 executes the read pass of pattern 0x55 yet the
line shows 0xAA, and from pass index 2 on the vector access is out of
bounds. -/
theorem C4_progress_pattern_index :
    progressLine 4 1 [0x55, 0xAA] = some ("read", some 0xAA) ∧
    (0xAA : Nat) ≠ 0x55 ∧
    progressLine 4 2 [0x55, 0xAA] = some ("write", none) := by
  refine ⟨by decide, by decide, by decide⟩

/-- Counterexample to Claim C5: with blockSize = 0 and sizeBytes = 100 the
constructor runs into the division by zero of line 36 (undefined behaviour),
not into the InvalidDevice runtime error of lines 41-44. -/
theorem C5_blocksize_zero_counterexample :
    mkBlockChecker 100 0 [0] = .error .divisionByZero ∧
    mkBlockChecker 100 0 [0] ≠ .error (.invalidDevice "Cannot determine size!") := by
  refine ⟨rfl, ?_⟩
  intro h
  rw [show mkBlockChecker 100 0 [0] = .error .divisionByZero from rfl] at h
  simp at h

/-- Claim C5 (amended): setup fails with the InvalidDevice runtime error
exactly when sizeBytes = 0 and blockSize is nonzero, aborting before any
pass could run; when blockSize = 0 the numBlocks computation of line 36
divides by zero before any check. -/
theorem C5_setup_errors (sizeBytes blockSize : Nat) (patterns : List Nat) :
    (blockSize ≠ 0 → (mkBlockChecker sizeBytes blockSize patterns =
        .error (.invalidDevice "Cannot determine size!") ↔ sizeBytes = 0)) ∧
    (blockSize = 0 → mkBlockChecker sizeBytes blockSize patterns = .error .divisionByZero) := by
  constructor
  · intro hb
    unfold mkBlockChecker
    rw [if_neg hb]
    by_cases hs : sizeBytes = 0
    · simp [hs]
    · simp [hs]
  · intro hb
    unfold mkBlockChecker
    rw [if_pos hb]

/-- Witness for C5 (amended) at sizeBytes 0, blockSize 4 and at sizeBytes
100, blockSize 0. -/
theorem C5_setup_errors_witness :
    ((4 : Nat) ≠ 0 ∧ (mkBlockChecker 0 4 [] =
        .error (.invalidDevice "Cannot determine size!") ↔ (0 : Nat) = 0)) ∧
    ((0 : Nat) = 0 ∧ mkBlockChecker 100 0 [] = .error .divisionByZero) :=
  ⟨⟨by decide, (C5_setup_errors 0 4 []).1 (by decide)⟩,
   ⟨rfl, (C5_setup_errors 100 0 []).2 rfl⟩⟩

/-- Counterexample to Claim C10: a short read (result 0 of requested
accessSize 8) in a read pass with active pattern 0x55 leaves the
zero-initialised buffer unchanged, verification still compares all
blockSize bytes, and the block records one error although the result was
non-negative. -/
theorem C10_short_read_counterexample :
    (0 : Int) ≤ 0 ∧ (0 : Int).toNat < accessSize 8 8 0 ∧
    ((readBlockStep 8 8 (some 0x55) 0 (List.replicate 8 0x55) 0 0 1
      { blockStats := List.replicate 1 {}, totalRead := {}, buffer := List.replicate 8 0,
        pos := 0, absentDerefs := 0 }).blockStats.getD 0 default).errors = 1 := by
  refine ⟨by decide, by decide, by decide⟩

/-- Helper: updateAt preserves the length of the list. -/
lemma updateAt_length {α : Type _} (f : α → α) : ∀ (i : Nat) (l : List α),
    (updateAt i f l).length = l.length := by
  intro i l
  induction l generalizing i with
  | nil => cases i <;> rfl
  | cons x xs ih =>
    cases i with
    | zero => rfl
    | succ n => simp [updateAt, ih n]

/-- Helper: updateAt at a valid index applies the function to that entry. -/
lemma updateAt_getD {α : Type _} (f : α → α) (d : α) : ∀ (i : Nat) (l : List α),
    i < l.length → (updateAt i f l).getD i d = f (l.getD i d) := by
  intro i l
  induction l generalizing i with
  | nil => intro h; simp at h
  | cons x xs ih =>
    intro h
    cases i with
    | zero => rfl
    | succ n => simpa [updateAt] using ih n (by simpa using h)

/-- Helper: an update that adds a to the bytes of a valid entry adds a to
the byte sum. -/
lemma sumBytes_updateAt (f : BlockStats → BlockStats) (a : Nat)
    (hf : ∀ x, (f x).bytes = x.bytes + a) : ∀ (i : Nat) (l : List BlockStats),
    i < l.length → sumBytes (updateAt i f l) = sumBytes l + a := by
  intro i l
  induction l generalizing i with
  | nil => intro h; simp at h
  | cons x xs ih =>
    intro h
    cases i with
    | zero =>
      simp only [updateAt, sumBytes, List.map_cons, List.sum_cons, hf x]
      omega
    | succ n =>
      have hn := ih n (by simpa using h)
      simp only [updateAt, sumBytes, List.map_cons, List.sum_cons] at hn ⊢
      omega

/-- Helper: the byte sum of freshly cleared block stats is zero. -/
lemma sumBytes_replicate (n : Nat) : sumBytes (List.replicate n {}) = 0 := by
  induction n with
  | zero => rfl
  | succ n ih =>
    simp only [sumBytes, List.replicate_succ, List.map_cons, List.sum_cons] at ih ⊢
    omega

/-- Helper: one read step with a non-negative result keeps the stats length
and adds exactly the accessSize of its block to the byte sum. -/
lemma readBlockStep_bytes (s b : Nat) (pattern : Option Nat) (junk : Nat)
    (device : List Nat) (i : Nat) (result : Int) (e : ℚ) (st : ReadState)
    (hres : 0 ≤ result) (hi : i < st.blockStats.length) :
    (readBlockStep s b pattern junk device i result e st).blockStats.length
        = st.blockStats.length ∧
    sumBytes (readBlockStep s b pattern junk device i result e st).blockStats
        = sumBytes st.blockStats + accessSize s b i := by
  have hneg : ¬ result < 0 := not_lt.mpr hres
  simp only [readBlockStep, if_neg hneg]
  exact ⟨updateAt_length _ _ _, sumBytes_updateAt _ _ (fun x => rfl) i _ hi⟩

/-- Helper: one write step with a non-negative result keeps the stats length
and adds exactly the accessSize of its block to the byte sum. -/
lemma writeBlockStep_bytes (s b p : Nat) (i : Nat) (result : Int) (e : ℚ)
    (st : WriteState) (hres : 0 ≤ result) (hi : i < st.blockStats.length) :
    (writeBlockStep s b p i result e st).blockStats.length = st.blockStats.length ∧
    sumBytes (writeBlockStep s b p i result e st).blockStats
        = sumBytes st.blockStats + accessSize s b i := by
  have hneg : ¬ result < 0 := not_lt.mpr hres
  simp only [writeBlockStep, if_neg hneg]
  exact ⟨updateAt_length _ _ _, sumBytes_updateAt _ _ (fun x => rfl) i _ hi⟩

/-- Helper: a read pass over the first k blocks with non-negative results
accumulates exactly the access lengths of those blocks. -/
lemma readPass_fold_bytes (s b : Nat) (pattern : Option Nat) (junk : Nat)
    (device : List Nat) (results : Nat → Int) (elapsed : Nat → ℚ)
    (hres : ∀ i, 0 ≤ results i) (n : Nat) :
    ∀ (k : Nat) (st : ReadState), st.blockStats.length = n → k ≤ n →
      ((List.range k).foldl
          (fun st i => readBlockStep s b pattern junk device i (results i) (elapsed i) st)
          st).blockStats.length = n ∧
      sumBytes ((List.range k).foldl
          (fun st i => readBlockStep s b pattern junk device i (results i) (elapsed i) st)
          st).blockStats
        = sumBytes st.blockStats + ((List.range k).map (accessSize s b)).sum := by
  intro k
  induction k with
  | zero => intro st h _; exact ⟨h, by simp⟩
  | succ k ih =>
    intro st h hk
    obtain ⟨ihlen, ihsum⟩ := ih st h (by omega)
    rw [List.range_succ, List.foldl_append, List.foldl_cons, List.foldl_nil]
    obtain ⟨slen, ssum⟩ := readBlockStep_bytes s b pattern junk device k (results k)
      (elapsed k) _ (hres k) (by rw [ihlen]; omega)
    refine ⟨by rw [slen, ihlen], ?_⟩
    rw [ssum, ihsum, List.map_append, List.sum_append, List.map_singleton, List.sum_singleton]
    omega

/-- Helper: a write pass over the first k blocks with non-negative results
accumulates exactly the access lengths of those blocks. -/
lemma writePass_fold_bytes (s b p : Nat) (results : Nat → Int) (elapsed : Nat → ℚ)
    (hres : ∀ i, 0 ≤ results i) (n : Nat) :
    ∀ (k : Nat) (st : WriteState), st.blockStats.length = n → k ≤ n →
      ((List.range k).foldl
          (fun st i => writeBlockStep s b p i (results i) (elapsed i) st)
          st).blockStats.length = n ∧
      sumBytes ((List.range k).foldl
          (fun st i => writeBlockStep s b p i (results i) (elapsed i) st)
          st).blockStats
        = sumBytes st.blockStats + ((List.range k).map (accessSize s b)).sum := by
  intro k
  induction k with
  | zero => intro st h _; exact ⟨h, by simp⟩
  | succ k ih =>
    intro st h hk
    obtain ⟨ihlen, ihsum⟩ := ih st h (by omega)
    rw [List.range_succ, List.foldl_append, List.foldl_cons, List.foldl_nil]
    obtain ⟨slen, ssum⟩ := writeBlockStep_bytes s b p k (results k)
      (elapsed k) _ (hres k) (by rw [ihlen]; omega)
    refine ⟨by rw [slen, ihlen], ?_⟩
    rw [ssum, ihsum, List.map_append, List.sum_append, List.map_singleton, List.sum_singleton]
    omega

/-- Claim C2 (amended): for every completed pass all of whose I/O calls
return a non-negative result, the sum of the bytes fields over all block
records equals sizeBytes exactly, for read passes and write passes alike;
blocks whose I/O call fails contribute no bytes, so the original unrestricted
statement fails (see the counterexample). -/
theorem C2_sum_bytes_error_free (s b : Nat) (hs : 0 < s) (hb : 0 < b)
    (pattern : Option Nat) (junk p : Nat) (device disk : List Nat)
    (results wresults : Nat → Int) (elapsed welapsed : Nat → ℚ)
    (hres : ∀ i, 0 ≤ results i) (hwres : ∀ i, 0 ≤ wresults i) :
    sumBytes (readPass s b pattern junk device results elapsed).blockStats = s ∧
    sumBytes (writePass s b p disk wresults welapsed).blockStats = s := by
  have hsum := (blockGeometry s b hs hb).2.2.1
  constructor
  · unfold readPass
    obtain ⟨_, h⟩ := readPass_fold_bytes s b pattern junk device results elapsed hres
      (numBlocks s b) (numBlocks s b)
      { blockStats := List.replicate (numBlocks s b) {}
        totalRead := {}
        buffer := List.replicate b 0
        pos := 0
        absentDerefs := if pattern.isNone then 1 else 0 }
      (by simp) (le_refl _)
    rw [h, hsum]
    simp [sumBytes_replicate]
  · unfold writePass
    obtain ⟨_, h⟩ := writePass_fold_bytes s b p wresults welapsed hwres
      (numBlocks s b) (numBlocks s b)
      { blockStats := List.replicate (numBlocks s b) {}
        totalWrite := {}
        disk := disk
        pos := 0 }
      (by simp) (le_refl _)
    rw [h, hsum]
    simp [sumBytes_replicate]

/-- Witness for C2 (amended): an error-free read pass and write pass over a
device with sizeBytes 8 and blockSize 4 both account exactly 8 bytes. -/
theorem C2_sum_bytes_error_free_witness :
    0 < 8 ∧ 0 < 4 ∧
    sumBytes (readPass 8 4 none 0 (List.replicate 8 0) (fun _ => 4) (fun _ => 1)).blockStats = 8 ∧
    sumBytes (writePass 8 4 0x55 (List.replicate 8 0) (fun _ => 4) (fun _ => 1)).blockStats = 8 :=
  ⟨by decide, by decide,
    (C2_sum_bytes_error_free 8 4 (by decide) (by decide) none 0 0x55
      (List.replicate 8 0) (List.replicate 8 0) (fun _ => 4) (fun _ => 4)
      (fun _ => 1) (fun _ => 1)
      (fun _ => by decide : ∀ _ : Nat, (0 : Int) ≤ 4)
      (fun _ => by decide : ∀ _ : Nat, (0 : Int) ≤ 4)).1,
    (C2_sum_bytes_error_free 8 4 (by decide) (by decide) none 0 0x55
      (List.replicate 8 0) (List.replicate 8 0) (fun _ => 4) (fun _ => 4)
      (fun _ => 1) (fun _ => 1)
      (fun _ => by decide : ∀ _ : Nat, (0 : Int) ≤ 4)
      (fun _ => by decide : ∀ _ : Nat, (0 : Int) ≤ 4)).2⟩

/-- Claim C10 (amended): for every block step whose I/O call returns a
non-negative result (including short transfers with result < accessSize),
the full requested accessSize is added to the byte totals of the block
record and of the direction totals and the measured time is accumulated;
the short result itself records no error: the error counters are untouched
in write passes and in pattern-free read passes (only a strictly negative
result reaches the error branch), while in a read pass with an active
pattern the error counters move only with the data-verification outcome. -/
theorem C10_short_io_accounting (s b : Nat) (pattern : Option Nat) (junk : Nat)
    (device : List Nat) (i : Nat) (result : Int) (e : ℚ) (p : Nat)
    (rst : ReadState) (wst : WriteState)
    (hres : 0 ≤ result) (hi : i < rst.blockStats.length) (hwi : i < wst.blockStats.length) :
    (((readBlockStep s b pattern junk device i result e rst).blockStats.getD i default).bytes
        = (rst.blockStats.getD i default).bytes + accessSize s b i ∧
      ((readBlockStep s b pattern junk device i result e rst).blockStats.getD i default).time
        = (rst.blockStats.getD i default).time + e ∧
      (readBlockStep s b pattern junk device i result e rst).totalRead.bytes
        = rst.totalRead.bytes + accessSize s b i ∧
      (readBlockStep s b pattern junk device i result e rst).totalRead.time
        = rst.totalRead.time + e ∧
      (pattern = none →
        ((readBlockStep s b pattern junk device i result e rst).blockStats.getD i default).errors
          = (rst.blockStats.getD i default).errors ∧
        (readBlockStep s b pattern junk device i result e rst).totalRead.errors
          = rst.totalRead.errors)) ∧
    (((writeBlockStep s b p i result e wst).blockStats.getD i default).bytes
        = (wst.blockStats.getD i default).bytes + accessSize s b i ∧
      ((writeBlockStep s b p i result e wst).blockStats.getD i default).time
        = (wst.blockStats.getD i default).time + e ∧
      (writeBlockStep s b p i result e wst).totalWrite.bytes
        = wst.totalWrite.bytes + accessSize s b i ∧
      (writeBlockStep s b p i result e wst).totalWrite.time
        = wst.totalWrite.time + e ∧
      ((writeBlockStep s b p i result e wst).blockStats.getD i default).errors
        = (wst.blockStats.getD i default).errors ∧
      (writeBlockStep s b p i result e wst).totalWrite.errors
        = wst.totalWrite.errors) := by
  have hneg : ¬ result < 0 := not_lt.mpr hres
  constructor
  · simp only [readBlockStep, if_neg hneg]
    rw [updateAt_getD _ _ i _ hi]
    refine ⟨by trivial, by trivial, by trivial, by trivial, ?_⟩
    intro hp
    subst hp
    simp
  · simp only [writeBlockStep, if_neg hneg]
    rw [updateAt_getD _ _ i _ hwi]
    exact ⟨by trivial, by trivial, by trivial, by trivial, by trivial, by trivial⟩

/-- Witness for C10 (amended): a short read and a short write (result 2 of
requested accessSize 8) on a one-block device still account the full
accessSize and the elapsed time, without any error in the pattern-free read
pass and in the write pass. -/
theorem C10_short_io_accounting_witness :
    (0 : Int) ≤ 2 ∧ 0 < ([({} : BlockStats)]).length ∧
    (((readBlockStep 8 8 none 0 (List.replicate 8 0) 0 2 1 { blockStats := [{}], totalRead := {}, buffer := List.replicate 8 0, pos := 0, absentDerefs := 0 }).blockStats.getD 0 default).bytes
        = (({ blockStats := [{}], totalRead := {}, buffer := List.replicate 8 0, pos := 0, absentDerefs := 0 } : ReadState).blockStats.getD 0 default).bytes + accessSize 8 8 0 ∧
     ((readBlockStep 8 8 none 0 (List.replicate 8 0) 0 2 1 { blockStats := [{}], totalRead := {}, buffer := List.replicate 8 0, pos := 0, absentDerefs := 0 }).blockStats.getD 0 default).time
        = (({ blockStats := [{}], totalRead := {}, buffer := List.replicate 8 0, pos := 0, absentDerefs := 0 } : ReadState).blockStats.getD 0 default).time + 1 ∧
     (readBlockStep 8 8 none 0 (List.replicate 8 0) 0 2 1 { blockStats := [{}], totalRead := {}, buffer := List.replicate 8 0, pos := 0, absentDerefs := 0 }).totalRead.bytes = ({ blockStats := [{}], totalRead := {}, buffer := List.replicate 8 0, pos := 0, absentDerefs := 0 } : ReadState).totalRead.bytes + accessSize 8 8 0 ∧
     (readBlockStep 8 8 none 0 (List.replicate 8 0) 0 2 1 { blockStats := [{}], totalRead := {}, buffer := List.replicate 8 0, pos := 0, absentDerefs := 0 }).totalRead.time = ({ blockStats := [{}], totalRead := {}, buffer := List.replicate 8 0, pos := 0, absentDerefs := 0 } : ReadState).totalRead.time + 1 ∧
     ((none : Option Nat) = none →
       ((readBlockStep 8 8 none 0 (List.replicate 8 0) 0 2 1 { blockStats := [{}], totalRead := {}, buffer := List.replicate 8 0, pos := 0, absentDerefs := 0 }).blockStats.getD 0 default).errors
          = (({ blockStats := [{}], totalRead := {}, buffer := List.replicate 8 0, pos := 0, absentDerefs := 0 } : ReadState).blockStats.getD 0 default).errors ∧
       (readBlockStep 8 8 none 0 (List.replicate 8 0) 0 2 1 { blockStats := [{}], totalRead := {}, buffer := List.replicate 8 0, pos := 0, absentDerefs := 0 }).totalRead.errors = ({ blockStats := [{}], totalRead := {}, buffer := List.replicate 8 0, pos := 0, absentDerefs := 0 } : ReadState).totalRead.errors)) ∧
    (((writeBlockStep 8 8 0x55 0 2 1 { blockStats := [{}], totalWrite := {}, disk := List.replicate 8 0, pos := 0 }).blockStats.getD 0 default).bytes
        = (({ blockStats := [{}], totalWrite := {}, disk := List.replicate 8 0, pos := 0 } : WriteState).blockStats.getD 0 default).bytes + accessSize 8 8 0 ∧
     ((writeBlockStep 8 8 0x55 0 2 1 { blockStats := [{}], totalWrite := {}, disk := List.replicate 8 0, pos := 0 }).blockStats.getD 0 default).time
        = (({ blockStats := [{}], totalWrite := {}, disk := List.replicate 8 0, pos := 0 } : WriteState).blockStats.getD 0 default).time + 1 ∧
     (writeBlockStep 8 8 0x55 0 2 1 { blockStats := [{}], totalWrite := {}, disk := List.replicate 8 0, pos := 0 }).totalWrite.bytes = ({ blockStats := [{}], totalWrite := {}, disk := List.replicate 8 0, pos := 0 } : WriteState).totalWrite.bytes + accessSize 8 8 0 ∧
     (writeBlockStep 8 8 0x55 0 2 1 { blockStats := [{}], totalWrite := {}, disk := List.replicate 8 0, pos := 0 }).totalWrite.time = ({ blockStats := [{}], totalWrite := {}, disk := List.replicate 8 0, pos := 0 } : WriteState).totalWrite.time + 1 ∧
     ((writeBlockStep 8 8 0x55 0 2 1 { blockStats := [{}], totalWrite := {}, disk := List.replicate 8 0, pos := 0 }).blockStats.getD 0 default).errors
        = (({ blockStats := [{}], totalWrite := {}, disk := List.replicate 8 0, pos := 0 } : WriteState).blockStats.getD 0 default).errors ∧
     (writeBlockStep 8 8 0x55 0 2 1 { blockStats := [{}], totalWrite := {}, disk := List.replicate 8 0, pos := 0 }).totalWrite.errors = ({ blockStats := [{}], totalWrite := {}, disk := List.replicate 8 0, pos := 0 } : WriteState).totalWrite.errors) :=
  ⟨by decide, by decide,
    C10_short_io_accounting 8 8 none 0 (List.replicate 8 0) 0 2 1 0x55
      { blockStats := [{}], totalRead := {}, buffer := List.replicate 8 0, pos := 0, absentDerefs := 0 }
      { blockStats := [{}], totalWrite := {}, disk := List.replicate 8 0, pos := 0 }
      (by decide) (by decide) (by decide)⟩

/-- Helper: in a list sorted by rate, an earlier entry has no larger rate. -/
lemma sorted_rate_le (l : List BlockStats) (hs : l.Sorted rateLE)
    (a b : Nat) (hab : a ≤ b) (hb : b < l.length) :
    (l.get ⟨a, by omega⟩).getRateMB ≤ (l.get ⟨b, hb⟩).getRateMB := by
  rcases Nat.lt_or_ge a b with h | h
  · exact hs.rel_get_of_lt (show (⟨a, by omega⟩ : Fin l.length) < ⟨b, hb⟩ from h)
  · have hA : a = b := by omega
    subst hA
    exact le_refl _

/-- Helper: getD version of the sortedness bound. -/
lemma sorted_getD_le (l : List BlockStats) (hs : l.Sorted rateLE)
    (a b : Nat) (hab : a ≤ b) (hb : b < l.length) :
    (l.getD a default).getRateMB ≤ (l.getD b default).getRateMB := by
  rw [List.getD_eq_getElem l default (by omega), List.getD_eq_getElem l default hb]
  have h := sorted_rate_le l hs a b hab hb
  simpa [List.get_eq_getElem] using h

/-- Helper: the rate of any valid sorted-array entry occurs among the rates
of the original records. -/
lemma getD_rate_mem (l stats : List BlockStats) (hperm : l.Perm stats)
    (k : Nat) (hk : k < l.length) :
    (l.getD k default).getRateMB ∈ stats.map BlockStats.getRateMB := by
  rw [List.getD_eq_getElem l default hk]
  exact List.mem_map_of_mem _ (hperm.mem_iff.mp (List.getElem_mem hk))

/-- Helper: on a rate-sorted list, the scan-from-the-start count of the
outlier loop equals the number of entries below the threshold. -/
lemma takeWhile_length_eq_countP (t : ℚ) :
    ∀ l : List BlockStats, l.Sorted rateLE →
      (l.takeWhile (fun s => decide (s.getRateMB < t))).length =
        l.countP (fun s => decide (s.getRateMB < t)) := by
  intro l
  induction l with
  | nil => intro _; rfl
  | cons x xs ih =>
    intro hs
    rw [List.sorted_cons] at hs
    obtain ⟨hx, hxs⟩ := hs
    by_cases h : x.getRateMB < t
    · rw [List.takeWhile_cons, if_pos (by simpa using h), List.length_cons,
        List.countP_cons, if_pos (by simpa using h), ih hxs]
    · rw [List.takeWhile_cons, if_neg (by simpa using h), List.countP_cons,
        if_neg (by simpa using h)]
      have hzero : xs.countP (fun s => decide (s.getRateMB < t)) = 0 := by
        rw [List.countP_eq_zero]
        intro a ha
        simp only [decide_eq_true_eq]
        intro hlt
        exact h (lt_of_le_of_lt (hx a ha) hlt)
      simp [hzero]

/-- Claim C7: for every completed pass the reported minimum is the least
rate and the reported maximum the greatest rate among all block records,
and the reported median is the entry at integer index numBlocks / 2 of the
rate-sorted records; on the rates 10, 20, 30, 40, 50 MB/s of the
specification example this yields min 10, max 50, med 30, and on the even
count 10, 20, 30, 40 the median is the upper-middle value 30, not an
averaged one. -/
theorem C7_pass_summary :
    (∀ stats : List BlockStats, stats ≠ [] →
      (passMin stats ∈ stats.map BlockStats.getRateMB ∧
        ∀ r ∈ stats.map BlockStats.getRateMB, passMin stats ≤ r) ∧
      (passMax stats ∈ stats.map BlockStats.getRateMB ∧
        ∀ r ∈ stats.map BlockStats.getRateMB, r ≤ passMax stats) ∧
      passMed stats = ((sortStats stats).getD (stats.length / 2) default).getRateMB) ∧
    passMin [(⟨1, 0, 31457280⟩ : BlockStats), ⟨1, 0, 10485760⟩, ⟨1, 0, 52428800⟩,
      ⟨1, 0, 20971520⟩, ⟨1, 0, 41943040⟩] = 10 ∧
    passMax [(⟨1, 0, 31457280⟩ : BlockStats), ⟨1, 0, 10485760⟩, ⟨1, 0, 52428800⟩,
      ⟨1, 0, 20971520⟩, ⟨1, 0, 41943040⟩] = 50 ∧
    passMed [(⟨1, 0, 31457280⟩ : BlockStats), ⟨1, 0, 10485760⟩, ⟨1, 0, 52428800⟩,
      ⟨1, 0, 20971520⟩, ⟨1, 0, 41943040⟩] = 30 ∧
    passMed [(⟨1, 0, 10485760⟩ : BlockStats), ⟨1, 0, 20971520⟩, ⟨1, 0, 31457280⟩,
      ⟨1, 0, 41943040⟩] = 30 := by
  refine ⟨?_, ?_, ?_, ?_, ?_⟩
  · intro stats hne
    have hlen0 : 0 < stats.length := List.length_pos.mpr hne
    have hslen : (sortStats stats).length = stats.length := List.length_insertionSort _ _
    have hsorted : (sortStats stats).Sorted rateLE := List.sorted_insertionSort _ _
    have hperm : (sortStats stats).Perm stats := List.perm_insertionSort _ _
    refine ⟨⟨?_, ?_⟩, ⟨?_, ?_⟩, rfl⟩
    · exact getD_rate_mem _ _ hperm 0 (by omega)
    · intro r hr
      obtain ⟨y, hy, rfl⟩ := List.mem_map.mp hr
      obtain ⟨n, rfl⟩ := List.mem_iff_get.mp (hperm.mem_iff.mpr hy)
      have h := sorted_getD_le (sortStats stats) hsorted 0 n.val (by omega) (by omega)
      rw [List.getD_eq_getElem _ default (show n.val < (sortStats stats).length from n.isLt)] at h
      simpa [passMin, List.get_eq_getElem] using h
    · exact getD_rate_mem _ _ hperm (stats.length - 1) (by omega)
    · intro r hr
      obtain ⟨y, hy, rfl⟩ := List.mem_map.mp hr
      obtain ⟨n, rfl⟩ := List.mem_iff_get.mp (hperm.mem_iff.mpr hy)
      have h := sorted_getD_le (sortStats stats) hsorted n.val (stats.length - 1)
        (by have := n.isLt; omega) (by omega)
      rw [List.getD_eq_getElem _ default (show n.val < (sortStats stats).length from n.isLt)] at h
      simpa [passMax, List.get_eq_getElem] using h
  · norm_num [passMin, passMax, passMed, sortStats, List.insertionSort, List.orderedInsert, rateLE,
      BlockStats.getRateMB, MB, List.getD]
  · norm_num [passMin, passMax, passMed, sortStats, List.insertionSort, List.orderedInsert, rateLE,
      BlockStats.getRateMB, MB, List.getD]
  · norm_num [passMin, passMax, passMed, sortStats, List.insertionSort, List.orderedInsert, rateLE,
      BlockStats.getRateMB, MB, List.getD]
  · norm_num [passMin, passMax, passMed, sortStats, List.insertionSort, List.orderedInsert, rateLE,
      BlockStats.getRateMB, MB, List.getD]

/-- Witness for C7 on the one-record pass with rate 1 MB/s. -/
theorem C7_pass_summary_witness :
    ([(⟨1, 0, 1048576⟩ : BlockStats)] ≠ []) ∧
    ((passMin [(⟨1, 0, 1048576⟩ : BlockStats)] ∈ [(⟨1, 0, 1048576⟩ : BlockStats)].map BlockStats.getRateMB ∧
      ∀ r ∈ [(⟨1, 0, 1048576⟩ : BlockStats)].map BlockStats.getRateMB, passMin [(⟨1, 0, 1048576⟩ : BlockStats)] ≤ r) ∧
     (passMax [(⟨1, 0, 1048576⟩ : BlockStats)] ∈ [(⟨1, 0, 1048576⟩ : BlockStats)].map BlockStats.getRateMB ∧
      ∀ r ∈ [(⟨1, 0, 1048576⟩ : BlockStats)].map BlockStats.getRateMB, r ≤ passMax [(⟨1, 0, 1048576⟩ : BlockStats)]) ∧
     passMed [(⟨1, 0, 1048576⟩ : BlockStats)] = ((sortStats [(⟨1, 0, 1048576⟩ : BlockStats)]).getD ([(⟨1, 0, 1048576⟩ : BlockStats)].length / 2) default).getRateMB) :=
  ⟨by decide, C7_pass_summary.1 [(⟨1, 0, 1048576⟩ : BlockStats)] (by decide)⟩

/-- Claim C8: for every completed pass and each threshold of the fixed
percentile set, the scan of the rate-sorted records from the start up to
the first entry at or above med * percent / 100 counts exactly the records
with rate strictly below that threshold (over all blocks of the pass), and
a warning entry for that threshold is emitted exactly when the count is
nonzero. -/
theorem C8_outlier_counts (stats : List BlockStats) (p : ℚ) (hp : p ∈ percentiles) :
    outlierNum stats p =
      stats.countP (fun s => decide (s.getRateMB < passMed stats * p / 100)) ∧
    ((p, outlierNum stats p) ∈ outlierWarnings stats ↔ outlierNum stats p ≠ 0) := by
  constructor
  · unfold outlierNum
    rw [takeWhile_length_eq_countP _ (sortStats stats)
      (show (sortStats stats).Sorted rateLE from List.sorted_insertionSort rateLE stats)]
    exact (show (sortStats stats).Perm stats from List.perm_insertionSort rateLE stats).countP_eq _
  · constructor
    · intro hmem
      rw [outlierWarnings, List.mem_filter] at hmem
      simpa using hmem.2
    · intro hne
      rw [outlierWarnings, List.mem_filter]
      exact ⟨List.mem_map_of_mem _ hp, by simpa using hne⟩

/-- Witness for C8 at the 50 percent threshold on the five-rate example of
the specification. -/
theorem C8_outlier_counts_witness :
    (50 : ℚ) ∈ percentiles ∧
    (outlierNum [(⟨1, 0, 10485760⟩ : BlockStats), ⟨1, 0, 20971520⟩, ⟨1, 0, 31457280⟩, ⟨1, 0, 41943040⟩, ⟨1, 0, 52428800⟩] 50 =
      ([(⟨1, 0, 10485760⟩ : BlockStats), ⟨1, 0, 20971520⟩, ⟨1, 0, 31457280⟩, ⟨1, 0, 41943040⟩, ⟨1, 0, 52428800⟩]).countP
        (fun s => decide (s.getRateMB < passMed [(⟨1, 0, 10485760⟩ : BlockStats), ⟨1, 0, 20971520⟩, ⟨1, 0, 31457280⟩, ⟨1, 0, 41943040⟩, ⟨1, 0, 52428800⟩] * 50 / 100)) ∧
     ((50, outlierNum [(⟨1, 0, 10485760⟩ : BlockStats), ⟨1, 0, 20971520⟩, ⟨1, 0, 31457280⟩, ⟨1, 0, 41943040⟩, ⟨1, 0, 52428800⟩] 50) ∈
        outlierWarnings [(⟨1, 0, 10485760⟩ : BlockStats), ⟨1, 0, 20971520⟩, ⟨1, 0, 31457280⟩, ⟨1, 0, 41943040⟩, ⟨1, 0, 52428800⟩] ↔
      outlierNum [(⟨1, 0, 10485760⟩ : BlockStats), ⟨1, 0, 20971520⟩, ⟨1, 0, 31457280⟩, ⟨1, 0, 41943040⟩, ⟨1, 0, 52428800⟩] 50 ≠ 0)) :=
  ⟨by decide, C8_outlier_counts [(⟨1, 0, 10485760⟩ : BlockStats), ⟨1, 0, 20971520⟩, ⟨1, 0, 31457280⟩, ⟨1, 0, 41943040⟩, ⟨1, 0, 52428800⟩] 50 (by decide)⟩

/-- Helper: masking with 0xff is reduction modulo 256. -/
lemma and_255_eq_mod (n : Nat) : n &&& 0xff = n % 256 := by
  have h := Nat.and_pow_two_sub_one_eq_mod n 8
  norm_num at h
  exact h

/-- Helper: XOR with a fixed value is injective. -/
lemma xor_cancel_left_nat (p a b : Nat) (h : p ^^^ a = p ^^^ b) : a = b := by
  have h2 := congrArg (fun x => p ^^^ x) h
  simpa [← Nat.xor_assoc, Nat.xor_self, Nat.zero_xor] using h2

/-- Claim C9: for every pattern byte p and distinct 64-bit block indices i
and j, the buffers produced by initBlock for i and for j differ in at least
one of their first eight bytes: the XOR index encoding is injective in the
block index. -/
theorem C9_index_bytes_injective (buffer : List Nat) (p i j : Nat)
    (hi : i < 2 ^ 64) (hj : j < 2 ^ 64) (hij : i ≠ j) :
    (initBlock buffer i p).take 8 ≠ (initBlock buffer j p).take 8 := by
  have htake : ∀ x : Nat, (initBlock buffer x p).take 8 = initBlockHeader p x := by
    intro x
    rw [initBlock, List.take_left' (by rfl)]
  rw [htake, htake]
  intro heq
  apply hij
  simp only [initBlockHeader, List.cons.injEq, and_true] at heq
  obtain ⟨h0, h1, h2, h3, h4, h5, h6, h7⟩ := heq
  have e0 := xor_cancel_left_nat _ _ _ h0
  have e1 := xor_cancel_left_nat _ _ _ h1
  have e2 := xor_cancel_left_nat _ _ _ h2
  have e3 := xor_cancel_left_nat _ _ _ h3
  have e4 := xor_cancel_left_nat _ _ _ h4
  have e5 := xor_cancel_left_nat _ _ _ h5
  have e6 := xor_cancel_left_nat _ _ _ h6
  have e7 := xor_cancel_left_nat _ _ _ h7
  simp only [Nat.shiftRight_eq_div_pow, and_255_eq_mod] at e0 e1 e2 e3 e4 e5 e6 e7
  norm_num at e1 e2 e3 e4 e5 e6 e7 hi hj
  omega

/-- Witness for C9 at pattern 0x55 and indices 0 and 1. -/
theorem C9_index_bytes_injective_witness :
    (0 : Nat) < 2 ^ 64 ∧ (1 : Nat) < 2 ^ 64 ∧ (0 : Nat) ≠ 1 ∧
    (initBlock (List.replicate 16 0x55) 0 0x55).take 8 ≠
      (initBlock (List.replicate 16 0x55) 1 0x55).take 8 :=
  ⟨by norm_num, by norm_num, by decide,
    C9_index_bytes_injective (List.replicate 16 0x55) 0x55 0 1
      (by norm_num) (by norm_num) (by decide)⟩

end ScanBadBlocks
